import Mathlib

/-!
Verification of the Signal-protocol proof-of-concept repository
(`signal_protocol_poc`): X3DH initial key agreement and the Double-Ratchet
session state machine.

The cryptographic primitives (X25519, HKDF-SHA256, HMAC-SHA256,
ChaCha20-Poly1305) are modelled symbolically, Dolev-Yao style: byte strings
are terms of an inductive type `Bytes`, and each primitive is a constructor.
Distinct terms model distinct byte strings (the primitives are treated as
injective and collision-free, which is the standard symbolic abstraction).
Private X25519 scalars are `Nat` seeds drawn from an explicit deterministic
counter that stands for the OS RNG; `Bytes.pub n` is the X25519 public key of
scalar `n`, and the X25519 shared secret of scalars `a` and `b` is the
canonical term `Bytes.shared (min a b) (max a b)`, which gives the
commutativity law `DH(a, pub b) = DH(b, pub a)` of X25519 by construction.

Rust functions that can panic (an `unwrap()` on `None`) are embedded as
`Option`-returning functions where the result `none` marks exactly the panic;
functions with no panic site are embedded as total functions.  Chain indices
are `u32` in the source; they are modelled as `Nat` (no claim exercises
wrap-around at 2^32).

Source files embedded below: `src/keys/chain_key.rs`, `src/keys/*.rs`,
`src/crypto_utils/{dh,encryption,hkdf}.rs`, `src/double_ratchet/state.rs`,
`src/x3dh/session.rs`, `src/user/mod.rs`.
-/

/-- Symbolic byte strings.  `raw n` is an uninterpreted constant byte array
(`raw 0` stands for `[0u8; 32]`); `pub n` is the X25519 public key of the
private scalar with seed `n`; `pubSign n` is the Ed25519 public key of the
signing seed `n`; `shared a b` is the canonical X25519 shared secret of
scalars `a ≤ b`; `dhX p q` is the X25519 output when the peer point `q` is
not an honestly generated public key (X25519 is total on byte arrays);
`hkdfSalted salt ikm info` and `hkdfNoSalt ikm info` are the two ways the
source instantiates HKDF-SHA256 (`Hkdf::new(Some(salt), ikm)` resp.
`Hkdf::new(None, ikm)`) followed by `expand(info)`; `hmacB key ctx` is
HMAC-SHA256; `cat3`/`cat4` are the concatenations of three resp. four
32-byte DH outputs; `sigOf seed msg` is the Ed25519 signature of `msg` under
signing seed `seed`. -/
inductive Bytes where
  | raw : Nat → Bytes
  | pub : Nat → Bytes
  | pubSign : Nat → Bytes
  | shared : Nat → Nat → Bytes
  | dhX : Nat → Bytes → Bytes
  | hkdfSalted : Bytes → Bytes → String → Bytes
  | hkdfNoSalt : Bytes → String → Bytes
  | hmacB : Bytes → String → Bytes
  | cat3 : Bytes → Bytes → Bytes → Bytes
  | cat4 : Bytes → Bytes → Bytes → Bytes → Bytes
  | sigOf : Nat → Bytes → Bytes
  deriving DecidableEq, Repr

/-- Plaintext byte sequences, as seen by the AEAD layer.  `ofString s` is
`s.as_bytes()` of a Rust `&str` (always valid UTF-8); `junk n` is a byte
sequence that is not valid UTF-8. -/
inductive PlainBytes where
  | ofString : String → PlainBytes
  | junk : Nat → PlainBytes
  deriving DecidableEq, Repr

/-- Symbolic ChaCha20-Poly1305 ciphertexts.  `sealed key nonce pt` is the
authenticated encryption of `pt` under `key` and `nonce`; `garbage n` is an
arbitrary byte string that is not a well-formed AEAD output under any key. -/
inductive Ciphertext where
  | sealed : Bytes → Nat → PlainBytes → Ciphertext
  | garbage : Nat → Ciphertext
  deriving DecidableEq, Repr

/-- Embeds `crypto_utils::dh::diffie_hellman` (src/crypto_utils/dh.rs):
X25519 scalar multiplication of the caller's private scalar with the peer's
public point.  When the point is an honest public key the result is the
canonical commutative shared secret. -/
def diffie_hellman (priv : Nat) (point : Bytes) : Bytes :=
  match point with
  | .pub m => .shared (min priv m) (max priv m)
  | p => .dhX priv p

/-- Embeds `crypto_utils::encryption::encrypt_chacha20`: seals the plaintext
under the key with a nonce freshly drawn from the RNG (here: the explicit
counter `rng`); returns `(ciphertext, nonce)` as the source does. -/
def encrypt_chacha20 (key : Bytes) (plaintext : PlainBytes) (rng : Nat) :
    Ciphertext × Nat :=
  (.sealed key rng plaintext, rng)

/-- Embeds `crypto_utils::encryption::decrypt_chacha20`: opening succeeds
exactly when the ciphertext was sealed under the same key and nonce
(Poly1305 authentication), returning the sealed plaintext. -/
def decrypt_chacha20 (key : Bytes) (nonce : Nat) (ct : Ciphertext) :
    Option PlainBytes :=
  match ct with
  | .sealed k n p => if k = key ∧ n = nonce then some p else none
  | .garbage _ => none

/-- Embeds Rust's `String::from_utf8(bytes).ok()` as used in
`RatchetState::decrypt`: `some` of the string when the bytes are valid
UTF-8, `none` otherwise. -/
def string_from_utf8 : PlainBytes → Option String
  | .ofString s => some s
  | .junk _ => none

/-- Embeds `keys::message_key::MessageKey`: a 32-byte AEAD key plus the chain
index it was derived at. -/
structure MessageKey where
  key : Bytes
  index : Nat
  deriving DecidableEq, Repr

/-- Embeds `keys::chain_key::ChainKey`: a 32-byte HMAC input key plus the
message index in the current chain. -/
structure ChainKey where
  key : Bytes
  index : Nat
  deriving DecidableEq, Repr

/-- Embeds `ChainKey::derive_next` (src/keys/chain_key.rs lines 29-48):
returns `(next_chain_key, message_key)` with
`message_key = HMAC(chain_key, "msg_key")` carrying the current index and
`next_chain_key = HMAC(chain_key, "ck")` carrying index + 1. -/
def ChainKey.derive_next (ck : ChainKey) : ChainKey × MessageKey :=
  (⟨.hmacB ck.key "ck", ck.index + 1⟩, ⟨.hmacB ck.key "msg_key", ck.index⟩)

/-- Embeds `keys::root_key::RootKey`: a 32-byte secret. -/
structure RootKey where
  bytes : Bytes
  deriving DecidableEq, Repr

/-- Embeds `keys::ratchet_key::RatchetKey`: an X25519 key pair used for DH
ratchet steps.  The source field `private` is a Rust keyword-free name; Lean
reserves `private`, so the field is called `priv` here. -/
structure RatchetKey where
  priv : Nat
  public : Bytes
  deriving DecidableEq, Repr

/-- Embeds `RatchetKey::new`: a fresh random X25519 pair, drawn here from the
explicit RNG counter. -/
def RatchetKey.new (rng : Nat) : RatchetKey :=
  ⟨rng, .pub rng⟩

/-- Embeds `RatchetKey::from_keys`: wraps pre-existing key material. -/
def RatchetKey.from_keys (p : Nat) (pb : Bytes) : RatchetKey :=
  ⟨p, pb⟩

/-- Embeds `crypto_utils::hkdf::derive_session_key`: HKDF-SHA256 with no
salt over the concatenated DH results, expanded with info `"x3dh-session"`. -/
def derive_session_key (dh_results : Bytes) : Bytes :=
  .hkdfNoSalt dh_results "x3dh-session"

/-- Embeds `crypto_utils::hkdf::derive_root_key`: HKDF-SHA256 with no salt
over the session key, expanded with info `"double-ratchet-root"`. -/
def derive_root_key (session_key : Bytes) : RootKey :=
  ⟨.hkdfNoSalt session_key "double-ratchet-root"⟩

/-- Embeds `crypto_utils::hkdf::derive_initial_chain_keys`: the initial
`(sending, receiving)` chain keys expanded from the root key with infos
`"ratchet-ck-send"` and `"ratchet-ck-recv"`, both at index 0. -/
def derive_initial_chain_keys (root_key : RootKey) : ChainKey × ChainKey :=
  (⟨.hkdfNoSalt root_key.bytes "ratchet-ck-send", 0⟩,
   ⟨.hkdfNoSalt root_key.bytes "ratchet-ck-recv", 0⟩)

/-- Embeds `keys::encrypted_message::EncryptedMessage`: the on-the-wire
envelope. -/
structure EncryptedMessage where
  sender : String
  receiver : String
  nonce : Nat
  ciphertext : Ciphertext
  ratchet_pub : Bytes
  message_index : Nat
  opk_used : Option Bytes
  ek_used : Option Bytes
  deriving DecidableEq, Repr

/-- Embeds `double_ratchet::state::RatchetState` (src/double_ratchet/state.rs
lines 17-25). -/
structure RatchetState where
  root_key : RootKey
  sending_chain : ChainKey
  receiving_chain : ChainKey
  dhs : RatchetKey
  dhr : Option Bytes
  last_dhs_private_used : Option Nat
  deriving DecidableEq, Repr

/-- Embeds `RatchetState::new` (state.rs lines 28-48): derives the initial
chain keys from the root key, swapping sending and receiving for the
responder, and starts with `last_dhs_private_used = None`. -/
def RatchetState.new (root_key : RootKey) (dhs : RatchetKey)
    (dhr : Option Bytes) (is_initiator : Bool) : RatchetState :=
  let p := derive_initial_chain_keys root_key
  let chains := if is_initiator then p else (p.2, p.1)
  { root_key := root_key, sending_chain := chains.1, receiving_chain := chains.2,
    dhs := dhs, dhr := dhr, last_dhs_private_used := none }

/-- Embeds `RatchetState::encrypt` (state.rs lines 50-85).  The source
unconditionally performs a root-KDF step on every send: it computes
`DH(dhs.private, dhr.unwrap())` — the `unwrap()` panics when `dhr` is absent,
modelled by the result `none` — expands a new root key (info
`"double-ratchet-rk"`) and a brand-new sending chain at index 0 (info
`"ratchet-ck-send"`), advances that chain once, tags the message with the
pre-advance index (always 0) and seals the plaintext with a fresh nonce.
The `opk_used`/`ek_used` parameters mirror the call in `User::send_message`
(src/user/mod.rs lines 109-115), which forwards the first-message X3DH
material into the envelope's optional fields.  -/
def RatchetState.encrypt (s : RatchetState) (plaintext : String)
    (sender receiver : String) (opk_used ek_used : Option Bytes) (rng : Nat) :
    Option (RatchetState × EncryptedMessage) :=
  match s.dhr with
  | none => none
  | some dhr_pub =>
    let dh_output := diffie_hellman s.dhs.priv dhr_pub
    let rk := Bytes.hkdfSalted s.root_key.bytes dh_output "double-ratchet-rk"
    let ck_send := Bytes.hkdfSalted s.root_key.bytes dh_output "ratchet-ck-send"
    let s1 : RatchetState :=
      { s with root_key := ⟨rk⟩, sending_chain := ⟨ck_send, 0⟩ }
    let step := s1.sending_chain.derive_next
    let index := s1.sending_chain.index
    let s2 : RatchetState := { s1 with sending_chain := step.1 }
    let sealedPair := encrypt_chacha20 step.2.key (.ofString plaintext) rng
    some (s2,
      { sender := sender, receiver := receiver, nonce := sealedPair.2,
        ciphertext := sealedPair.1, ratchet_pub := s2.dhs.public,
        message_index := index, opk_used := opk_used, ek_used := ek_used })

/-- Loop body of the `while self.receiving_chain.index < msg.message_index`
loop of `RatchetState::decrypt` (state.rs lines 144-147), with the loop's
decreasing measure `target - index` made explicit as structural fuel (each
iteration raises the index by one, so the fuel is exact): re-check the loop
condition, advance the chain and drop the derived message key. -/
def advanceFuel : Nat → ChainKey → Nat → ChainKey
  | 0, ck, _ => ck
  | f + 1, ck, target =>
    if ck.index < target then advanceFuel f ck.derive_next.1 target else ck

/-- Embeds the `while self.receiving_chain.index < msg.message_index` loop of
`RatchetState::decrypt` (state.rs lines 144-147): advance the chain until the
index reaches the target. -/
def advance_to (ck : ChainKey) (target : Nat) : ChainKey :=
  advanceFuel (target - ck.index) ck target

/-- Embeds the `is_new_dhr` test of `RatchetState::decrypt` (state.rs line
88): `self.dhr.map_or(true, |prev| prev != msg.ratchet_pub)`. -/
def is_new_dhr (s : RatchetState) (rp : Bytes) : Bool :=
  match s.dhr with
  | none => true
  | some prev => decide (prev ≠ rp)

/-- Embeds `RatchetState::decrypt` (state.rs lines 87-160).  If the
envelope's `ratchet_pub` is new (or `dhr` was absent), the state adopts it as
`dhr`, stores the current private scalar in `last_dhs_private_used`, rotates
`dhs` to a fresh pair, and computes the DH with the OLD private scalar
(`last_dhs_private_used.unwrap_or(...)`).  Otherwise the DH uses
`last_dhs_private_used.unwrap_or(dhs.private)`.  In both branches a root-KDF
step replaces the root key (info `"double-ratchet-rk"`) and installs a fresh
receiving chain (info `"ratchet-ck-send"`) at index `msg.message_index`; the
skip loop is then vacuous, one `derive_next` produces the message key, and
the AEAD is opened; a non-UTF-8 decryption yields `none` via
`String::from_utf8(..).ok()`.  `decrypt` has no panic site, so it is total;
`rng` feeds the fresh `RatchetKey::new` of the rotation.  -/
def RatchetState.decrypt (s : RatchetState) (msg : EncryptedMessage)
    (rng : Nat) : RatchetState × Option String :=
  if is_new_dhr s msg.ratchet_pub then
    let s1 : RatchetState :=
      { s with dhr := some msg.ratchet_pub,
               last_dhs_private_used := some s.dhs.priv,
               dhs := RatchetKey.new rng }
    let dh_private := s1.last_dhs_private_used.getD s1.dhs.priv
    let dh_output := diffie_hellman dh_private msg.ratchet_pub
    let rk := Bytes.hkdfSalted s1.root_key.bytes dh_output "double-ratchet-rk"
    let ck_recv := Bytes.hkdfSalted s1.root_key.bytes dh_output "ratchet-ck-send"
    let s2 : RatchetState :=
      { s1 with root_key := ⟨rk⟩, receiving_chain := ⟨ck_recv, msg.message_index⟩ }
    let step := s2.receiving_chain.derive_next
    let s3 : RatchetState := { s2 with receiving_chain := step.1 }
    match decrypt_chacha20 step.2.key msg.nonce msg.ciphertext with
    | some plaintext_bytes => (s3, string_from_utf8 plaintext_bytes)
    | none => (s3, none)
  else
    let dh_private := s.last_dhs_private_used.getD s.dhs.priv
    let dh_output := diffie_hellman dh_private msg.ratchet_pub
    let rk := Bytes.hkdfSalted s.root_key.bytes dh_output "double-ratchet-rk"
    let ck_recv := Bytes.hkdfSalted s.root_key.bytes dh_output "ratchet-ck-send"
    let s2 : RatchetState :=
      { s with root_key := ⟨rk⟩, receiving_chain := ⟨ck_recv, msg.message_index⟩ }
    let s2w : RatchetState :=
      { s2 with receiving_chain := advance_to s2.receiving_chain msg.message_index }
    let step := s2w.receiving_chain.derive_next
    let s3 : RatchetState := { s2w with receiving_chain := step.1 }
    match decrypt_chacha20 step.2.key msg.nonce msg.ciphertext with
    | some plaintext_bytes => (s3, string_from_utf8 plaintext_bytes)
    | none => (s3, none)

/-- Derived observation on `RatchetState::decrypt`: the private scalar the
decrypt path feeds into `diffie_hellman` for an envelope carrying
`ratchet_pub = rp`.  In the new-`dhr` branch the code stores the old
`dhs.private` into `last_dhs_private_used` and immediately unwraps it; in the
other branch it is `last_dhs_private_used.unwrap_or(dhs.private)`. -/
def recvPriv (s : RatchetState) (rp : Bytes) : Nat :=
  match s.dhr with
  | none => s.dhs.priv
  | some prev =>
    if prev = rp then s.last_dhs_private_used.getD s.dhs.priv else s.dhs.priv

/-- Derived observation on `RatchetState::decrypt`: the AEAD message key the
decrypt path derives for an envelope, in either branch (the skip loop of the
source is vacuous because the fresh receiving chain is installed already at
`msg.message_index`). -/
def recvKey (s : RatchetState) (msg : EncryptedMessage) : Bytes :=
  .hmacB
    (.hkdfSalted s.root_key.bytes
      (diffie_hellman (recvPriv s msg.ratchet_pub) msg.ratchet_pub)
      "ratchet-ck-send")
    "msg_key"

/-- Embeds `keys::identity::IdentityKey`: an X25519 pair for ECDH plus an
Ed25519 pair for signing.  The fields `dh_private` and `sign_private` are the
private seeds. -/
structure IdentityKey where
  dh_private : Nat
  dh_public : Bytes
  sign_private : Nat
  sign_public : Bytes
  deriving DecidableEq, Repr

/-- Embeds `IdentityKey::new`: fresh random X25519 and Ed25519 pairs, drawn
here from two consecutive RNG seeds. -/
def IdentityKey.new (rng : Nat) : IdentityKey :=
  { dh_private := rng, dh_public := .pub rng,
    sign_private := rng + 1, sign_public := .pubSign (rng + 1) }

/-- Embeds `keys::signed_prekey::SignedPreKey`: an X25519 pair, an Ed25519
signature of the public key under the owner's identity signing key, a UUID
and a creation timestamp.  The Rust field `private` is called `priv` here
(Lean reserves `private`). -/
structure SignedPreKey where
  id : String
  priv : Nat
  public : Bytes
  signature : Bytes
  created_at : Nat
  deriving DecidableEq, Repr

/-- Embeds `SignedPreKey::new`: a fresh X25519 pair whose public half is
signed by the identity signing key. -/
def SignedPreKey.new (identity_sign_private : Nat) (rng : Nat) : SignedPreKey :=
  { id := toString rng, priv := rng, public := .pub rng,
    signature := .sigOf identity_sign_private (.pub rng), created_at := 0 }

/-- Embeds `keys::ephemeral_key::EphemeralKey`: a handshake-scoped X25519
pair.  The Rust field `private` is called `priv` here. -/
structure EphemeralKey where
  priv : Nat
  public : Bytes
  deriving DecidableEq, Repr

/-- Embeds `EphemeralKey::new`: a fresh random X25519 pair. -/
def EphemeralKey.new (rng : Nat) : EphemeralKey :=
  ⟨rng, .pub rng⟩

/-- Embeds `keys::one_time_prekey::OneTimePreKey`: a single-use X25519 pair
with a UUID.  The Rust field `private` is called `priv` here. -/
structure OneTimePreKey where
  id : String
  priv : Nat
  public : Bytes
  deriving DecidableEq, Repr

/-- Embeds `OneTimePreKey::new`: a fresh random X25519 pair with a fresh
UUID. -/
def OneTimePreKey.new (rng : Nat) : OneTimePreKey :=
  { id := toString rng, priv := rng, public := .pub rng }

/-- Embeds `keys::one_time_prekey::OneTimePreKeyPublic`. -/
structure OneTimePreKeyPublic where
  id : String
  public : Bytes
  deriving DecidableEq, Repr

/-- Embeds `keys::one_time_prekey::OneTimePreKeyGroup`: the user's private
pool of one-time pre-keys. -/
structure OneTimePreKeyGroup where
  keys : List OneTimePreKey
  deriving DecidableEq, Repr

/-- Embeds `OneTimePreKeyGroup::new`: a batch of `size` freshly generated
keys, drawn here from consecutive RNG seeds. -/
def OneTimePreKeyGroup.new (size : Nat) (rng : Nat) : OneTimePreKeyGroup :=
  ⟨(List.range size).map (fun i => OneTimePreKey.new (rng + i))⟩

/-- Embeds `OneTimePreKeyGroup::get_by_public_key` (one_time_prekey.rs lines
87-89): the first pool entry whose public key matches, if any. -/
def OneTimePreKeyGroup.get_by_public_key (g : OneTimePreKeyGroup)
    (pubkey : Bytes) : Option OneTimePreKey :=
  g.keys.find? (fun k => k.public = pubkey)

/-- Embeds `keys::one_time_prekey::OneTimePreKeyGroupPublic`. -/
structure OneTimePreKeyGroupPublic where
  keys : List OneTimePreKeyPublic
  deriving DecidableEq, Repr

/-- Embeds `OneTimePreKeyGroup::public_group`: the public-only view of the
pool. -/
def OneTimePreKeyGroup.public_group (g : OneTimePreKeyGroup) :
    OneTimePreKeyGroupPublic :=
  ⟨g.keys.map (fun k => { id := k.id, public := k.public })⟩

/-- Embeds `OneTimePreKeyGroupPublic::use_key`: a non-consuming clone of the
first key of the group, or `None` when the group is empty. -/
def OneTimePreKeyGroupPublic.use_key (g : OneTimePreKeyGroupPublic) :
    Option OneTimePreKeyPublic :=
  match g.keys with
  | [] => none
  | k :: _ => some k

/-- Embeds `keys::session_key::SessionKey`: the 32-byte X3DH output plus the
endpoint names. -/
structure SessionKey where
  bytes : Bytes
  sender : String
  receiver : String
  deriving DecidableEq, Repr

/-- Embeds `x3dh::session::create_session_key` (src/x3dh/session.rs lines
34-60), the initiator side: DH1 = DH(IK_init, SPK_resp),
DH2 = DH(EK_init, IK_resp), DH3 = DH(EK_init, SPK_resp), and
DH4 = DH(EK_init, OPK_resp) appended only when an OPK is present; the session
key is HKDF with no salt over the concatenation, info `"x3dh-session"`.  No
signature is inspected anywhere on this path. -/
def create_session_key (sender_name receiver_name : String)
    (ik_initiator : IdentityKey) (ek_initiator : EphemeralKey)
    (spk_receiver ik_receiver : Bytes)
    (opk_receiver : Option OneTimePreKeyPublic) : SessionKey :=
  let dh1 := diffie_hellman ik_initiator.dh_private spk_receiver
  let dh2 := diffie_hellman ek_initiator.priv ik_receiver
  let dh3 := diffie_hellman ek_initiator.priv spk_receiver
  let ikm :=
    match opk_receiver with
    | some opk => Bytes.cat4 dh1 dh2 dh3 (diffie_hellman ek_initiator.priv opk.public)
    | none => Bytes.cat3 dh1 dh2 dh3
  { bytes := derive_session_key ikm, sender := sender_name, receiver := receiver_name }

/-- Embeds `x3dh::session::receive_session_key` (src/x3dh/session.rs lines
88-106), the responder side: DH1 = DH(SPK_resp, IK_init),
DH2 = DH(IK_resp, EK_init), DH3 = DH(SPK_resp, EK_init),
DH4 = DH(OPK_resp, EK_init).  The one-time pre-key parameter is NOT optional
and DH4 is always included. -/
def receive_session_key (receiver_name sender_name : String)
    (receiver_ik : IdentityKey) (receiver_spk : SignedPreKey)
    (receiver_opk : OneTimePreKey)
    (sender_ik_public sender_ek_public : Bytes) : SessionKey :=
  let dh1 := diffie_hellman receiver_spk.priv sender_ik_public
  let dh2 := diffie_hellman receiver_ik.dh_private sender_ek_public
  let dh3 := diffie_hellman receiver_spk.priv sender_ek_public
  let dh4 := diffie_hellman receiver_opk.priv sender_ek_public
  let ikm := Bytes.cat4 dh1 dh2 dh3 dh4
  { bytes := derive_session_key ikm, sender := sender_name, receiver := receiver_name }

/-- Embeds `user::public_info::UserPublicInfo`: the published bundle.  Note
that it carries no signature field at all — only the raw 32-byte `ik` and
`spk` publics and the public one-time pre-key group. -/
structure UserPublicInfo where
  id : String
  name : String
  ik : Bytes
  spk : Bytes
  opk : OneTimePreKeyGroupPublic
  deriving DecidableEq, Repr

/-- Embeds `user::User` (src/user/mod.rs lines 30-37).  The Rust `HashMap`
keyed by peer id is modelled as an association list. -/
structure User where
  id : String
  name : String
  ik : IdentityKey
  spk : SignedPreKey
  opk : OneTimePreKeyGroup
  sessions : List (String × RatchetState)
  deriving DecidableEq, Repr

/-- Association-list lookup standing for `HashMap::get` on the session
directory. -/
def lookupSession (sessions : List (String × RatchetState)) (peer : String) :
    Option RatchetState :=
  match sessions.find? (fun e => e.1 = peer) with
  | some e => some e.2
  | none => none

/-- Association-list insert-or-replace standing for `HashMap::insert` /
`entry(..).or_insert_with(..)` writing back the mutated session. -/
def insertSession (sessions : List (String × RatchetState)) (peer : String)
    (st : RatchetState) : List (String × RatchetState) :=
  match sessions with
  | [] => [(peer, st)]
  | e :: rest =>
    if e.1 = peer then (peer, st) :: rest else e :: insertSession rest peer st

/-- Embeds `User::new`: fresh identity key, signed pre-key and a batch of 100
one-time pre-keys, all drawn from consecutive RNG seeds. -/
def User.new (name : String) (rng : Nat) : User :=
  let ik := IdentityKey.new rng
  let spk := SignedPreKey.new ik.sign_private (rng + 2)
  let opk := OneTimePreKeyGroup.new 100 (rng + 3)
  { id := toString rng, name := name, ik := ik, spk := spk, opk := opk,
    sessions := [] }

/-- Embeds `User::public_info` (src/user/mod.rs lines 58-66): the public
bundle, without any signature. -/
def User.public_info (u : User) : UserPublicInfo :=
  { id := u.id, name := u.name, ik := u.ik.dh_public, spk := u.spk.public,
    opk := u.opk.public_group }

/-- Embeds `User::send_message` (src/user/mod.rs lines 79-116).  If a session
for the peer exists it is reused (the closure never runs, so `used_opk` and
`used_ek` stay `None`); otherwise a fresh ephemeral key is generated, an OPK
of the peer is selected, `create_session_key` runs initiator-side (with no
signature check anywhere), the root key is derived, a fresh `dhs` pair is
generated, and the ratchet state is constructed with `dhr = Some(peer.spk)` (the Rust parameter `to` is a reserved word in Lean and is called `peer` here) and
`is_initiator = true`.  Finally `encrypt` runs on the session; its `none`
(the `dhr.unwrap()` panic) propagates. -/
def User.send_message (u : User) (peer : UserPublicInfo) (plaintext : String)
    (rng : Nat) : Option (User × EncryptedMessage) :=
  match lookupSession u.sessions peer.id with
  | some ratchet =>
    match ratchet.encrypt plaintext u.name peer.name none none rng with
    | none => none
    | some (r', m) =>
      some ({ u with sessions := insertSession u.sessions peer.id r' }, m)
  | none =>
    let ek := EphemeralKey.new rng
    let opk := peer.opk.use_key
    let used_opk := opk.map (fun o => o.public)
    let used_ek := some ek.public
    let session := create_session_key u.name peer.name u.ik ek peer.spk peer.ik opk
    let rk := derive_root_key session.bytes
    let dhs := RatchetKey.new (rng + 1)
    let st := RatchetState.new rk dhs (some peer.spk) true
    match st.encrypt plaintext u.name peer.name used_opk used_ek (rng + 2) with
    | none => none
    | some (r', m) =>
      some ({ u with sessions := insertSession u.sessions peer.id r' }, m)

/-- Embeds `User::receive_message` (src/user/mod.rs lines 129-158).  If a
session for the sender exists it is reused; otherwise the local OPK scalar is
looked up by the envelope's `opk_used` public — the source calls `.unwrap()`
on this lookup, so an absent or unknown `opk_used` PANICS, modelled by the
result `none` — then `receive_session_key` runs responder-side with
`ek_used.unwrap_or([0u8; 32])`, the root key is derived, `dhs` is installed
as the local signed-pre-key pair, and the state starts with `dhr = None` and
`is_initiator = false`.  Finally `decrypt` runs (it is total). -/
def User.receive_message (u : User) (srcUser : UserPublicInfo)
    (msg : EncryptedMessage) (rng : Nat) : Option (User × Option String) :=
  match lookupSession u.sessions srcUser.id with
  | some ratchet =>
    let res := ratchet.decrypt msg rng
    some ({ u with sessions := insertSession u.sessions srcUser.id res.1 }, res.2)
  | none =>
    match msg.opk_used.bind (fun o => u.opk.get_by_public_key o) with
    | none => none
    | some opk =>
      let ek := msg.ek_used.getD (Bytes.raw 0)
      let session := receive_session_key u.name srcUser.name u.ik u.spk opk
        srcUser.ik ek
      let rk := derive_root_key session.bytes
      let dhs := RatchetKey.from_keys u.spk.priv u.spk.public
      let st := RatchetState.new rk dhs none false
      let res := st.decrypt msg rng
      some ({ u with sessions := insertSession u.sessions srcUser.id res.1 }, res.2)

/-! Concrete material used by the witness and counterexample theorems below.
`wRk` is a session root key shared by the two endpoints as produced by the
X3DH phase; `wAlice` is an initiator-side ratchet state (its `dhr` is the
responder's signed-pre-key public, as installed by `User::send_message`) and
`wBob` the matching responder-side state (its `dhs` is the local
signed-pre-key pair and its `dhr` starts absent, as installed by
`User::receive_message`).  Scalar seeds: 5 = Alice's first ratchet pair,
3 = Bob's signed pre-key. -/

/-- Shared initial root key of the concrete witness session. -/
def wRk : RootKey := derive_root_key (Bytes.raw 7)

/-- Concrete initiator-side ratchet state. -/
def wAlice : RatchetState :=
  RatchetState.new wRk ⟨5, .pub 5⟩ (some (.pub 3)) true

/-- Concrete responder-side ratchet state. -/
def wBob : RatchetState :=
  RatchetState.new wRk ⟨3, .pub 3⟩ none false

/-- Placeholder envelope used only as the default of `Option.getD` in the
concrete-run definitions below; the accompanying theorems prove the options
are `some`, so the placeholder is never the value actually taken. -/
def wDummy : RatchetState × EncryptedMessage :=
  (wAlice,
   { sender := "", receiver := "", nonce := 0, ciphertext := .garbage 0,
     ratchet_pub := .raw 0, message_index := 0, opk_used := none,
     ek_used := none })

/-- First concrete send: Alice encrypts "m1" (nonce seed 11). -/
def wSend1 : RatchetState × EncryptedMessage :=
  (wAlice.encrypt "m1" "Alice" "Bob" none none 11).getD wDummy

/-- Second concrete send: Alice encrypts "m2" (nonce seed 12) with no new
remote ratchet public observed in between. -/
def wSend2 : RatchetState × EncryptedMessage :=
  (wSend1.1.encrypt "m2" "Alice" "Bob" none none 12).getD wDummy

/-- The ratchet public of the concrete first message. -/
def wRp : Bytes := .pub 5

/-- The message key Bob's decrypt derives for an envelope from `wAlice`
carrying `ratchet_pub = wRp`, spelled out. -/
def wKey1 : Bytes :=
  .hmacB (.hkdfSalted wRk.bytes (diffie_hellman 3 wRp) "ratchet-ck-send")
    "msg_key"

/-- A well-formed concrete first envelope sealed under the correct message
key, as `wAlice.encrypt "m1" ... 11` produces it. -/
def wMsgOk : EncryptedMessage :=
  { sender := "Alice", receiver := "Bob", nonce := 11,
    ciphertext := .sealed wKey1 11 (.ofString "m1"), ratchet_pub := wRp,
    message_index := 0, opk_used := none, ek_used := none }

/-- A concrete envelope whose AEAD authenticates under the message key Bob
will derive, but whose sealed payload is not valid UTF-8. -/
def wMsgJunk : EncryptedMessage :=
  { sender := "Alice", receiver := "Bob", nonce := 11,
    ciphertext := .sealed wKey1 11 (.junk 0), ratchet_pub := wRp,
    message_index := 0, opk_used := none, ek_used := none }

/-- A concrete envelope with garbage ciphertext, used to show that decrypt
rotates `dhs` on a new ratchet public even when the AEAD fails. -/
def wMsgGarbage : EncryptedMessage :=
  { sender := "Alice", receiver := "Bob", nonce := 0,
    ciphertext := .garbage 0, ratchet_pub := wRp, message_index := 0,
    opk_used := none, ek_used := none }

/-- A concrete user with one one-time pre-key (public `pub 103`) and no
sessions. -/
def wUserA : User :=
  { id := "uid-a", name := "Alice", ik := IdentityKey.new 100,
    spk := SignedPreKey.new 101 102, opk := ⟨[OneTimePreKey.new 103]⟩,
    sessions := [] }

/-- A concrete peer user whose signed pre-key is properly signed by their
identity signing key. -/
def wUserB : User :=
  { id := "uid-b", name := "Bob", ik := IdentityKey.new 200,
    spk := SignedPreKey.new 201 202, opk := ⟨[OneTimePreKey.new 203]⟩,
    sessions := [] }

/-- The same peer user with the signed-pre-key signature replaced by bytes
that are NOT a signature of anything: an invalid pre-key bundle. -/
def wUserBBadSig : User :=
  { wUserB with spk := { wUserB.spk with signature := .raw 99 } }

/-- A concrete first-message envelope whose `opk_used` references a one-time
pre-key public (`pub 77`) that `wUserA` does not hold. -/
def wMsgUnknownOpk : EncryptedMessage :=
  { sender := "Bob", receiver := "Alice", nonce := 0,
    ciphertext := .garbage 0, ratchet_pub := .pub 9, message_index := 0,
    opk_used := some (.pub 77), ek_used := some (.pub 8) }

/-- The same envelope with `opk_used` absent. -/
def wMsgNoOpk : EncryptedMessage :=
  { wMsgUnknownOpk with opk_used := none }

/-- X25519 commutativity, by construction of the symbolic model: the DH of a
private scalar with the other party's public key does not depend on which
side computes it. -/
theorem dh_comm (a b : Nat) :
    diffie_hellman a (.pub b) = diffie_hellman b (.pub a) := by
  simp [diffie_hellman, Nat.min_comm, Nat.max_comm]

/-- The skip loop of `decrypt` is vacuous when the chain already starts at or
beyond the target index. -/
theorem advance_to_le (ck : ChainKey) (target : Nat) (h : target ≤ ck.index) :
    advance_to ck target = ck := by
  unfold advance_to
  rw [Nat.sub_eq_zero_of_le h]
  rfl

/-- Full characterization of `RatchetState.encrypt` when `dhr` is present:
the root key and a brand-new sending chain are expanded from
`HKDF(salt = root, ikm = DH(dhs.priv, dhr))`, the chain ends at index 1, and
the envelope carries index 0, the current `dhs.public`, and the plaintext
sealed under the first message key of the new chain. -/
theorem encrypt_eq (s : RatchetState) (r : Bytes) (p sn rn : String)
    (o e : Option Bytes) (rng : Nat) (h : s.dhr = some r) :
    RatchetState.encrypt s p sn rn o e rng =
      some
        ({ s with
            root_key :=
              ⟨.hkdfSalted s.root_key.bytes (diffie_hellman s.dhs.priv r)
                "double-ratchet-rk"⟩,
            sending_chain :=
              ⟨.hmacB
                (.hkdfSalted s.root_key.bytes (diffie_hellman s.dhs.priv r)
                  "ratchet-ck-send") "ck", 1⟩ },
         { sender := sn, receiver := rn, nonce := rng,
           ciphertext :=
             .sealed
               (.hmacB
                 (.hkdfSalted s.root_key.bytes (diffie_hellman s.dhs.priv r)
                   "ratchet-ck-send") "msg_key") rng (.ofString p),
           ratchet_pub := s.dhs.public, message_index := 0, opk_used := o,
           ek_used := e }) := by
  simp [RatchetState.encrypt, h, ChainKey.derive_next, encrypt_chacha20]

/-- The plaintext result of `RatchetState.decrypt` is the AEAD opening of the
envelope under the derived message key `recvKey`, post-processed by
`String::from_utf8(..).ok()`; this holds in both branches. -/
theorem decrypt_snd (s : RatchetState) (msg : EncryptedMessage) (rng : Nat) :
    (s.decrypt msg rng).2 =
      (decrypt_chacha20 (recvKey s msg) msg.nonce msg.ciphertext).bind
        string_from_utf8 := by
  unfold RatchetState.decrypt
  by_cases hnew : is_new_dhr s msg.ratchet_pub
  · have hrp : recvPriv s msg.ratchet_pub = s.dhs.priv := by
      unfold recvPriv is_new_dhr at *
      match h : s.dhr with
      | none => rfl
      | some prev =>
        rw [h] at hnew
        simp at hnew
        simp [hnew]
    simp only [hnew, if_true]
    cases hdec :
        decrypt_chacha20 (recvKey s msg) msg.nonce msg.ciphertext with
    | none =>
      simp [recvKey, hrp, ChainKey.derive_next] at hdec
      simp [ChainKey.derive_next, hdec]
    | some pt =>
      simp [recvKey, hrp, ChainKey.derive_next] at hdec
      simp [ChainKey.derive_next, hdec]
  · have hprev : s.dhr = some msg.ratchet_pub := by
      unfold is_new_dhr at hnew
      match h : s.dhr with
      | none => rw [h] at hnew; simp at hnew
      | some prev =>
        rw [h] at hnew
        simp at hnew
        simp [hnew]
    have hrp :
        recvPriv s msg.ratchet_pub =
          s.last_dhs_private_used.getD s.dhs.priv := by
      unfold recvPriv
      rw [hprev]
      simp
    simp only [hnew, if_false]
    rw [advance_to_le _ _ (Nat.le_refl _)]
    cases hdec :
        decrypt_chacha20 (recvKey s msg) msg.nonce msg.ciphertext with
    | none =>
      simp [recvKey, hrp, ChainKey.derive_next] at hdec
      simp [ChainKey.derive_next, hdec]
    | some pt =>
      simp [recvKey, hrp, ChainKey.derive_next] at hdec
      simp [ChainKey.derive_next, hdec]

/-- Full characterization of the state `RatchetState.decrypt` commits (it
commits it even when the AEAD fails): the root key and a fresh receiving
chain are expanded from `HKDF(salt = root, ikm = DH(recvPriv, ratchet_pub))`,
the receiving chain ends one step past the envelope's index, `dhr` adopts the
envelope's ratchet public, and — exactly when the ratchet public is new —
`dhs` is rotated to a fresh pair with the old private scalar kept in
`last_dhs_private_used`. -/
theorem decrypt_fst (s : RatchetState) (msg : EncryptedMessage) (rng : Nat) :
    (s.decrypt msg rng).1 =
      { root_key :=
          ⟨.hkdfSalted s.root_key.bytes
            (diffie_hellman (recvPriv s msg.ratchet_pub) msg.ratchet_pub)
            "double-ratchet-rk"⟩,
        sending_chain := s.sending_chain,
        receiving_chain :=
          ⟨.hmacB
            (.hkdfSalted s.root_key.bytes
              (diffie_hellman (recvPriv s msg.ratchet_pub) msg.ratchet_pub)
              "ratchet-ck-send") "ck", msg.message_index + 1⟩,
        dhs := if is_new_dhr s msg.ratchet_pub then RatchetKey.new rng else s.dhs,
        dhr := some msg.ratchet_pub,
        last_dhs_private_used :=
          if is_new_dhr s msg.ratchet_pub then some s.dhs.priv
          else s.last_dhs_private_used } := by
  unfold RatchetState.decrypt
  by_cases hnew : is_new_dhr s msg.ratchet_pub
  · have hrp : recvPriv s msg.ratchet_pub = s.dhs.priv := by
      unfold recvPriv is_new_dhr at *
      match h : s.dhr with
      | none => rfl
      | some prev =>
        rw [h] at hnew
        simp at hnew
        simp [hnew]
    cases hdec :
        decrypt_chacha20
          (.hmacB
            (.hkdfSalted s.root_key.bytes
              (diffie_hellman s.dhs.priv msg.ratchet_pub) "ratchet-ck-send")
            "msg_key") msg.nonce msg.ciphertext with
    | none => simp [hnew, ChainKey.derive_next, hdec, hrp]
    | some pt => simp [hnew, ChainKey.derive_next, hdec, hrp]
  · have hprev : s.dhr = some msg.ratchet_pub := by
      unfold is_new_dhr at hnew
      match h : s.dhr with
      | none => rw [h] at hnew; simp at hnew
      | some prev =>
        rw [h] at hnew
        simp at hnew
        simp [hnew]
    have hrp :
        recvPriv s msg.ratchet_pub =
          s.last_dhs_private_used.getD s.dhs.priv := by
      unfold recvPriv
      rw [hprev]
      simp
    simp only [hnew, if_false]
    rw [advance_to_le _ _ (Nat.le_refl _)]
    cases hdec :
        decrypt_chacha20
          (.hmacB
            (.hkdfSalted s.root_key.bytes
              (diffie_hellman (s.last_dhs_private_used.getD s.dhs.priv)
                msg.ratchet_pub) "ratchet-ck-send")
            "msg_key") msg.nonce msg.ciphertext with
    | none => simp [ChainKey.derive_next, hdec, hrp, hprev]
    | some pt => simp [ChainKey.derive_next, hdec, hrp, hprev]

/-- The private scalar feeding the next inbound DH is preserved across a
decrypt of an envelope with the same ratchet public: after the commit, the
scalar `recvPriv` selects is the one that was used for this envelope. -/
theorem recvPriv_decrypt (s : RatchetState) (msg : EncryptedMessage)
    (rng : Nat) :
    recvPriv (s.decrypt msg rng).1 msg.ratchet_pub =
      recvPriv s msg.ratchet_pub := by
  rw [decrypt_fst]
  by_cases hnew : is_new_dhr s msg.ratchet_pub
  · have hrp : recvPriv s msg.ratchet_pub = s.dhs.priv := by
      unfold recvPriv is_new_dhr at *
      match h : s.dhr with
      | none => rfl
      | some prev =>
        rw [h] at hnew
        simp at hnew
        simp [hnew]
    rw [hrp]
    simp [recvPriv, hnew]
  · have hprev : s.dhr = some msg.ratchet_pub := by
      unfold is_new_dhr at hnew
      match h : s.dhr with
      | none => rw [h] at hnew; simp at hnew
      | some prev =>
        rw [h] at hnew
        simp at hnew
        simp [hnew]
    simp [recvPriv, hnew, hprev]

/-- Core round-trip lemma.  If `a` is a sender state holding an honest key
pair whose `dhr` is the honest public key of the scalar `q` that receiver
state `b` will feed into its inbound DH for `a`'s ratchet public, and the two
root keys agree, then an envelope produced by `a.encrypt` decrypts on `b` to
the original plaintext, and the two post-states agree again on the root key
and on the inbound DH scalar — so the invariant is preserved for the next
in-order message. -/
theorem roundtrip_core (a b : RatchetState) (q : Nat) (p sn rn : String)
    (o e : Option Bytes) (na nb : Nat)
    (hpub : a.dhs.public = .pub a.dhs.priv)
    (hdhr : a.dhr = some (.pub q))
    (hrk : a.root_key = b.root_key)
    (hq : recvPriv b (.pub a.dhs.priv) = q) :
    ∃ a' m,
      RatchetState.encrypt a p sn rn o e na = some (a', m) ∧
      (b.decrypt m nb).2 = some p ∧
      a'.dhs = a.dhs ∧ a'.dhr = a.dhr ∧
      a'.root_key = ((b.decrypt m nb).1).root_key ∧
      recvPriv (b.decrypt m nb).1 (.pub a.dhs.priv) = q ∧
      m.ratchet_pub = .pub a.dhs.priv ∧ m.message_index = 0 := by
  refine ⟨_, _, encrypt_eq a (.pub q) p sn rn o e na hdhr, ?_, rfl, rfl, ?_, ?_,
    hpub, rfl⟩
  · rw [decrypt_snd]
    simp only [recvKey, hpub, hq, dh_comm q a.dhs.priv, ← hrk]
    simp [decrypt_chacha20, string_from_utf8]
  · rw [decrypt_fst]
    simp only [recvKey, hpub, hq, dh_comm q a.dhs.priv, ← hrk]
  · rw [← hpub, recvPriv_decrypt]
    simp only [hpub, hq]

/-- C1: For any plaintext `p` and any established session between two users
(sender state and receiver state sharing the root key, the sender holding an
honest ratchet pair, and the sender's `dhr` being the honest public key of
the scalar the receiver will feed into its inbound DH), decrypting with the
receiver's ratchet state the envelope produced by encrypting `p` with the
sender's ratchet state, delivered immediately and in order, returns exactly
`p`. -/
theorem C1_roundtrip (a b : RatchetState) (q : Nat) (p sn rn : String)
    (o e : Option Bytes) (na nb : Nat)
    (hpub : a.dhs.public = .pub a.dhs.priv)
    (hdhr : a.dhr = some (.pub q))
    (hrk : a.root_key = b.root_key)
    (hq : recvPriv b (.pub a.dhs.priv) = q) :
    ∃ a' m b',
      RatchetState.encrypt a p sn rn o e na = some (a', m) ∧
      b.decrypt m nb = (b', some p) := by
  obtain ⟨a', m, he, hd, -⟩ :=
    roundtrip_core a b q p sn rn o e na nb hpub hdhr hrk hq
  exact ⟨a', m, (b.decrypt m nb).1, he, by rw [← hd]⟩

/-- Witness for C1 at a concrete established session: Alice's state `wAlice`
and Bob's state `wBob` share the root key `wRk`; Alice encrypts "m1" and Bob
decrypts it back. -/
theorem C1_roundtrip_witness :
    ∃ a' m b',
      RatchetState.encrypt wAlice "m1" "Alice" "Bob" none none 11 =
        some (a', m) ∧
      wBob.decrypt m 21 = (b', some "m1") :=
  C1_roundtrip wAlice wBob 3 "m1" "Alice" "Bob" none none 11 21 rfl rfl rfl rfl

/-- C3 counterexample: with no new remote ratchet public observed between two
consecutive sends, the code still emits `message_index = 0` both times — the
second index is NOT the first plus one, and the sending chain is reset rather
than kept. -/
theorem C3_counterexample :
    ((wAlice.encrypt "m1" "Alice" "Bob" none none 11).bind fun r =>
        (r.1.encrypt "m2" "Alice" "Bob" none none 12).map fun r2 =>
          (r.2.message_index, r2.2.message_index,
            decide (r2.2.message_index = r.2.message_index + 1))) =
      some (0, 0, false) := by decide

/-- C3 amended: `encrypt` performs a DH-ratchet-style root-KDF step on EVERY
send, with no `last_dhr` test: it installs a brand-new sending chain at
index 0 from `HKDF(salt = root, ikm = DH(dhs, dhr))`, advances it exactly
once, and tags the message with the pre-advance index, so every emitted
`message_index` is 0 and the post-send sending-chain index is always 1. -/
theorem C3_always_ratchets (s : RatchetState) (r : Bytes) (p sn rn : String)
    (o e : Option Bytes) (rng : Nat) (h : s.dhr = some r) :
    ∃ s' m,
      RatchetState.encrypt s p sn rn o e rng = some (s', m) ∧
      m.message_index = 0 ∧ s'.sending_chain.index = 1 ∧
      s'.sending_chain.key =
        .hmacB
          (.hkdfSalted s.root_key.bytes (diffie_hellman s.dhs.priv r)
            "ratchet-ck-send") "ck" ∧
      s'.root_key.bytes =
        .hkdfSalted s.root_key.bytes (diffie_hellman s.dhs.priv r)
          "double-ratchet-rk" :=
  ⟨_, _, encrypt_eq s r p sn rn o e rng h, rfl, rfl, rfl, rfl⟩

/-- Witness for the amended C3 at the concrete state `wAlice`. -/
theorem C3_always_ratchets_witness :
    ∃ s' m,
      RatchetState.encrypt wAlice "m1" "Alice" "Bob" none none 11 =
        some (s', m) ∧
      m.message_index = 0 ∧ s'.sending_chain.index = 1 ∧
      s'.sending_chain.key =
        .hmacB
          (.hkdfSalted wAlice.root_key.bytes
            (diffie_hellman wAlice.dhs.priv (.pub 3)) "ratchet-ck-send")
          "ck" ∧
      s'.root_key.bytes =
        .hkdfSalted wAlice.root_key.bytes
          (diffie_hellman wAlice.dhs.priv (.pub 3)) "double-ratchet-rk" :=
  C3_always_ratchets wAlice (.pub 3) "m1" "Alice" "Bob" none none 11 rfl

/-- C7: `advance_chain` (`ChainKey::derive_next`) maps a chain key CK at
index i to `(CK', MK)` with `MK = HMAC-SHA256(CK, "msg_key")` at index i and
`CK' = HMAC-SHA256(CK, "ck")` at index i + 1; consequently equal chain keys
always yield equal `(CK', MK)`. -/
theorem C7_advance_chain :
    (∀ ck : ChainKey,
        ck.derive_next =
          (⟨.hmacB ck.key "ck", ck.index + 1⟩,
           ⟨.hmacB ck.key "msg_key", ck.index⟩)) ∧
    (∀ ck₁ ck₂ : ChainKey, ck₁ = ck₂ → ck₁.derive_next = ck₂.derive_next) :=
  ⟨fun _ => rfl, fun _ _ h => by rw [h]⟩

/-- Witness for C7 at a concrete chain key. -/
theorem C7_advance_chain_witness :
    ChainKey.derive_next ⟨.raw 1, 4⟩ =
        (⟨.hmacB (.raw 1) "ck", 5⟩, ⟨.hmacB (.raw 1) "msg_key", 4⟩) ∧
      ChainKey.derive_next ⟨.raw 1, 4⟩ = ChainKey.derive_next ⟨.raw 1, 4⟩ :=
  ⟨C7_advance_chain.1 ⟨.raw 1, 4⟩,
   C7_advance_chain.2 ⟨.raw 1, 4⟩ ⟨.raw 1, 4⟩ rfl⟩

/-- C9 counterexample: calling `encrypt` on a state whose remote ratchet
public `dhr` is still absent does NOT return an error — the source calls
`self.dhr.as_ref().unwrap()` and panics, modelled by the result `none`. -/
theorem C9_counterexample :
    RatchetState.encrypt wBob "x" "Bob" "Alice" none none 0 = none := rfl

/-- C9 amended: `encrypt` returns an envelope exactly when `dhr` is present,
and PANICS (`unwrap` on `None`, modelled by `none`) when it is absent; at the
user level, `receive_message` returns nothing — it panics — exactly when no
session exists for the sender and the `opk_used` lookup fails (absent or
unknown public); no error value is ever produced. -/
theorem C9_panic_characterization :
    (∀ (s : RatchetState) (p sn rn : String) (o e : Option Bytes) (rng : Nat),
        (RatchetState.encrypt s p sn rn o e rng).isSome = s.dhr.isSome) ∧
    (∀ (u : User) (srcU : UserPublicInfo) (msg : EncryptedMessage) (rng : Nat),
        u.receive_message srcU msg rng = none ↔
          lookupSession u.sessions srcU.id = none ∧
            msg.opk_used.bind (fun o => u.opk.get_by_public_key o) = none) := by
  constructor
  · intro s p sn rn o e rng
    cases h : s.dhr with
    | none => simp [RatchetState.encrypt, h]
    | some r => simp [RatchetState.encrypt, h]
  · intro u srcU msg rng
    unfold User.receive_message
    cases hs : lookupSession u.sessions srcU.id with
    | some st => simp [hs]
    | none =>
      cases ho : msg.opk_used.bind (fun o => u.opk.get_by_public_key o) with
      | none => simp [ho]
      | some opk => simp [ho]

/-- C10: when AEAD authentication of an envelope succeeds but the decrypted
bytes are not valid UTF-8, `RatchetState::decrypt` returns `None` — the same
observable outcome as an authentication failure — and whenever it does return
a plaintext, that plaintext is exactly the string that was sealed under the
derived message key and the envelope's nonce: never an altered or lossily
converted one. -/
theorem C10_utf8_opacity (b : RatchetState) (msg : EncryptedMessage)
    (rng n : Nat) (str : String) :
    (msg.ciphertext = .sealed (recvKey b msg) msg.nonce (.junk n) →
      (b.decrypt msg rng).2 = none) ∧
    ((b.decrypt msg rng).2 = some str →
      msg.ciphertext = .sealed (recvKey b msg) msg.nonce (.ofString str)) := by
  constructor
  · intro h
    rw [decrypt_snd, h]
    simp [decrypt_chacha20, string_from_utf8]
  · intro h
    rw [decrypt_snd] at h
    cases hct : msg.ciphertext with
    | garbage k => rw [hct] at h; simp [decrypt_chacha20] at h
    | sealed k nn pt =>
      rw [hct] at h
      by_cases hk : k = recvKey b msg ∧ nn = msg.nonce
      · obtain ⟨hk1, hk2⟩ := hk
        subst hk1
        subst hk2
        simp [decrypt_chacha20] at h
        cases pt with
        | ofString s0 =>
          simp [string_from_utf8] at h
          rw [h]
        | junk j => simp [string_from_utf8] at h
      · simp [decrypt_chacha20, hk] at h

/-- Witness for C10: on the concrete state `wBob`, a concrete envelope that
authenticates but carries non-UTF-8 bytes decrypts to `None`, and a concrete
envelope that decrypts to `some "m1"` is exactly the sealing of "m1" under
the derived key and nonce. -/
theorem C10_utf8_opacity_witness :
    (wBob.decrypt wMsgJunk 9).2 = none ∧
    wMsgOk.ciphertext =
      .sealed (recvKey wBob wMsgOk) wMsgOk.nonce (.ofString "m1") :=
  ⟨(C10_utf8_opacity wBob wMsgJunk 9 0 "m1").1 (by decide),
   (C10_utf8_opacity wBob wMsgOk 9 0 "m1").2 (by decide)⟩

/-- C4 counterexample: two consecutive sends under the same ratchet public
never carry indices k and k + 1 (both carry 0), and delivering the later
envelope first makes BOTH decryptions fail — there is no skipped-key buffer
in the code, so out-of-order delivery is not supported. -/
theorem C4_counterexample :
    (wAlice.encrypt "m1" "Alice" "Bob" none none 11).isSome = true ∧
    (wSend1.1.encrypt "m2" "Alice" "Bob" none none 12).isSome = true ∧
    (wBob.decrypt wSend2.2 21).2 = none ∧
    (((wBob.decrypt wSend2.2 21).1).decrypt wSend1.2 22).2 = none := by decide

/-- C4 amended: there is no skipped-key buffer; two messages sent
consecutively under the same ratchet public both carry `message_index = 0`
and decrypt correctly only when delivered in send order (each decrypt
re-derives the message key from the immediately advanced root), in which case
both yield the original plaintexts. -/
theorem C4_in_order_only (a b : RatchetState) (q : Nat) (p1 p2 sn rn : String)
    (o e : Option Bytes) (n1 n2 d1 d2 : Nat)
    (hpub : a.dhs.public = .pub a.dhs.priv)
    (hdhr : a.dhr = some (.pub q))
    (hrk : a.root_key = b.root_key)
    (hq : recvPriv b (.pub a.dhs.priv) = q) :
    ∃ a1 m1 a2 m2,
      RatchetState.encrypt a p1 sn rn o e n1 = some (a1, m1) ∧
      RatchetState.encrypt a1 p2 sn rn o e n2 = some (a2, m2) ∧
      m1.message_index = 0 ∧ m2.message_index = 0 ∧
      (b.decrypt m1 d1).2 = some p1 ∧
      (((b.decrypt m1 d1).1).decrypt m2 d2).2 = some p2 := by
  obtain ⟨a1, m1, he1, hd1, hdhs1, hdhr1, hrk1, hq1, hrp1, hidx1⟩ :=
    roundtrip_core a b q p1 sn rn o e n1 d1 hpub hdhr hrk hq
  have hpub1 : a1.dhs.public = .pub a1.dhs.priv := by rw [hdhs1]; exact hpub
  have hdhr1' : a1.dhr = some (.pub q) := by rw [hdhr1]; exact hdhr
  have hq1' : recvPriv (b.decrypt m1 d1).1 (.pub a1.dhs.priv) = q := by
    rw [hdhs1]; exact hq1
  obtain ⟨a2, m2, he2, hd2, -, -, -, -, -, hidx2⟩ :=
    roundtrip_core a1 (b.decrypt m1 d1).1 q p2 sn rn o e n2 d2 hpub1 hdhr1'
      hrk1 hq1'
  exact ⟨a1, m1, a2, m2, he1, he2, hidx1, hidx2, hd1, hd2⟩

/-- Witness for the amended C4 at the concrete session `wAlice` / `wBob`. -/
theorem C4_in_order_only_witness :
    ∃ a1 m1 a2 m2,
      RatchetState.encrypt wAlice "m1" "Alice" "Bob" none none 11 =
        some (a1, m1) ∧
      RatchetState.encrypt a1 "m2" "Alice" "Bob" none none 12 =
        some (a2, m2) ∧
      m1.message_index = 0 ∧ m2.message_index = 0 ∧
      (wBob.decrypt m1 21).2 = some "m1" ∧
      (((wBob.decrypt m1 21).1).decrypt m2 22).2 = some "m2" :=
  C4_in_order_only wAlice wBob 3 "m1" "m2" "Alice" "Bob" none none 11 12 21 22
    rfl rfl rfl rfl

/-- C2 counterexample: when the initiator omits the one-time pre-key (DH4),
the responder cannot mirror it — `receive_session_key` takes a mandatory
`OneTimePreKey` and always includes DH4 — so on otherwise matched inputs the
two 32-byte outputs differ (three-block vs four-block HKDF input). -/
theorem C2_counterexample :
    (create_session_key "Alice" "Bob" (IdentityKey.new 1) (EphemeralKey.new 3)
        (Bytes.pub 5) (Bytes.pub 7) none).bytes ≠
      (receive_session_key "Bob" "Alice" (IdentityKey.new 7)
        (SignedPreKey.new 8 5) (OneTimePreKey.new 9) (.pub 1)
        (.pub 3)).bytes := by decide

/-- C2 amended: on matched inputs the initiator's `create_session_key` and
the responder's `receive_session_key` produce bit-identical 32-byte session
keys WHEN a one-time pre-key is used (DH4 included on both sides); the
no-OPK case has no matching responder call, since `receive_session_key`
unconditionally computes DH4. -/
theorem C2_x3dh_agreement (sn rn : String) (ikA : IdentityKey)
    (ekA : EphemeralKey) (ikB : IdentityKey) (spkB : SignedPreKey)
    (opkB : OneTimePreKey)
    (h1 : ikA.dh_public = .pub ikA.dh_private)
    (h2 : ekA.public = .pub ekA.priv)
    (h3 : ikB.dh_public = .pub ikB.dh_private)
    (h4 : spkB.public = .pub spkB.priv)
    (h5 : opkB.public = .pub opkB.priv) :
    (create_session_key sn rn ikA ekA spkB.public ikB.dh_public
        (some ⟨opkB.id, opkB.public⟩)).bytes =
      (receive_session_key rn sn ikB spkB opkB ikA.dh_public
        ekA.public).bytes := by
  simp [create_session_key, receive_session_key, derive_session_key, h1, h2,
    h3, h4, h5, diffie_hellman, Nat.min_comm, Nat.max_comm]

/-- Witness for the amended C2 at concrete matched key material. -/
theorem C2_x3dh_agreement_witness :
    (create_session_key "Alice" "Bob" (IdentityKey.new 1) (EphemeralKey.new 3)
        (SignedPreKey.new 8 5).public (IdentityKey.new 7).dh_public
        (some ⟨(OneTimePreKey.new 9).id, (OneTimePreKey.new 9).public⟩)).bytes =
      (receive_session_key "Bob" "Alice" (IdentityKey.new 7)
        (SignedPreKey.new 8 5) (OneTimePreKey.new 9)
        (IdentityKey.new 1).dh_public (EphemeralKey.new 3).public).bytes :=
  C2_x3dh_agreement "Alice" "Bob" (IdentityKey.new 1) (EphemeralKey.new 3)
    (IdentityKey.new 7) (SignedPreKey.new 8 5) (OneTimePreKey.new 9) rfl rfl
    rfl rfl rfl

/-- C5 counterexample: the signed-pre-key signature is never verified — the
published bundle does not even carry it.  A bundle whose stored signature is
garbage (`Bytes.raw 99`, not a signature of anything) is accepted: the
initiator performs the X3DH DHs and returns an envelope, identical to the one
produced for the honestly signed bundle, instead of the claimed
`InvalidPreKeyBundle` error. -/
theorem C5_counterexample :
    (wUserA.send_message wUserBBadSig.public_info "hello" 300).isSome = true ∧
    wUserA.send_message wUserBBadSig.public_info "hello" 300 =
      wUserA.send_message wUserB.public_info "hello" 300 := by decide

/-- C5 amended: no signature verification exists on the session-initiation
path: `UserPublicInfo` carries no signature, `create_session_key` computes
the DHs unconditionally, and `send_message` on a fresh peer always produces
an envelope — there is no `InvalidPreKeyBundle` error path in the code. -/
theorem C5_no_verification (u : User) (peer : UserPublicInfo) (p : String)
    (rng : Nat) (h : lookupSession u.sessions peer.id = none) :
    (u.send_message peer p rng).isSome := by
  have henc :=
    encrypt_eq
      (RatchetState.new
        (derive_root_key
          (create_session_key u.name peer.name u.ik (EphemeralKey.new rng)
            peer.spk peer.ik peer.opk.use_key).bytes)
        (RatchetKey.new (rng + 1)) (some peer.spk) true)
      peer.spk p u.name peer.name (peer.opk.use_key.map fun o => o.public)
      (some (EphemeralKey.new rng).public) (rng + 2) rfl
  simp [User.send_message, h, henc]

/-- Witness for the amended C5: a fresh concrete peer gets an envelope. -/
theorem C5_no_verification_witness :
    (wUserA.send_message wUserB.public_info "hello" 300).isSome :=
  C5_no_verification wUserA wUserB.public_info "hello" 300 rfl

/-- C6 counterexample: a first-message envelope whose `opk_used` references a
one-time pre-key public the receiver does not hold — or is absent — does NOT
surface an `UnknownOneTimePreKey` error: the source calls `.unwrap()` on the
failed lookup and PANICS (modelled by `none`); no error value reaches the
caller and no such error type exists in the code. -/
theorem C6_counterexample :
    wUserA.receive_message wUserB.public_info wMsgUnknownOpk 0 = none ∧
    wUserA.receive_message wUserB.public_info wMsgNoOpk 0 = none := by decide

/-- C6 amended: when no session exists for the sender and the envelope's
`opk_used` is absent or references a public not in the local pool,
`receive_message` panics (`unwrap` on `None`, modelled by `none`); no session
is created and no error value is returned. -/
theorem C6_unknown_opk_panics (u : User) (srcU : UserPublicInfo)
    (msg : EncryptedMessage) (rng : Nat)
    (hs : lookupSession u.sessions srcU.id = none)
    (ho : msg.opk_used.bind (fun o => u.opk.get_by_public_key o) = none) :
    u.receive_message srcU msg rng = none := by
  simp [User.receive_message, hs, ho]

/-- Witness for the amended C6 at a concrete user and envelope. -/
theorem C6_unknown_opk_panics_witness :
    wUserA.receive_message wUserB.public_info wMsgNoOpk 1 = none :=
  C6_unknown_opk_panics wUserA wUserB.public_info wMsgNoOpk 1 rfl rfl

/-- C8 counterexample: the direction of DHs rotation is inverted relative to
the claim — an outbound step (`encrypt`) keeps `dhs` unchanged, while an
inbound step (`decrypt` on a new ratchet public) rotates `dhs` immediately,
even when the AEAD fails. -/
theorem C8_counterexample :
    ((wAlice.encrypt "m1" "Alice" "Bob" none none 11).map fun r => r.1.dhs) =
        some wAlice.dhs ∧
      (wBob.decrypt wMsgGarbage 9).1.dhs ≠ wBob.dhs := by decide

/-- C8 amended: `encrypt` never generates a fresh DHs pair — it reuses the
current one for its DH; `decrypt` on a NEW remote ratchet public rotates DHs
immediately, storing the old private scalar in `last_dhs_private_used` (and
uses that old scalar for the inbound DH), while on an already-seen ratchet
public it leaves DHs unchanged. -/
theorem C8_dhs_rotation :
    (∀ (s : RatchetState) (r : Bytes) (p sn rn : String) (o e : Option Bytes)
        (rng : Nat), s.dhr = some r →
        ∃ s' m,
          RatchetState.encrypt s p sn rn o e rng = some (s', m) ∧
            s'.dhs = s.dhs) ∧
    (∀ (b : RatchetState) (msg : EncryptedMessage) (rng : Nat),
        is_new_dhr b msg.ratchet_pub = true →
          (b.decrypt msg rng).1.dhs = RatchetKey.new rng ∧
            (b.decrypt msg rng).1.last_dhs_private_used = some b.dhs.priv) ∧
    (∀ (b : RatchetState) (msg : EncryptedMessage) (rng : Nat),
        is_new_dhr b msg.ratchet_pub = false →
          (b.decrypt msg rng).1.dhs = b.dhs) := by
  refine ⟨?_, ?_, ?_⟩
  · intro s r p sn rn o e rng h
    exact ⟨_, _, encrypt_eq s r p sn rn o e rng h, rfl⟩
  · intro b msg rng h
    rw [decrypt_fst]
    simp [h]
  · intro b msg rng h
    rw [decrypt_fst]
    simp [h]

/-- Witness for the amended C8 at the concrete states `wAlice` and `wBob`. -/
theorem C8_dhs_rotation_witness :
    (∃ s' m,
        RatchetState.encrypt wAlice "m1" "Alice" "Bob" none none 11 =
          some (s', m) ∧ s'.dhs = wAlice.dhs) ∧
      ((wBob.decrypt wMsgGarbage 9).1.dhs = RatchetKey.new 9 ∧
        (wBob.decrypt wMsgGarbage 9).1.last_dhs_private_used =
          some wBob.dhs.priv) :=
  ⟨C8_dhs_rotation.1 wAlice (.pub 3) "m1" "Alice" "Bob" none none 11 rfl,
   C8_dhs_rotation.2.1 wBob wMsgGarbage 9 (by decide)⟩
